import Mathlib

/-!
Verification of the WAT25_IndicDoc repository (two Python scripts:
`src/inference_prompt.py`, the batched generation runner, and
`src/download_data.py`, the dataset exporter) against its design
specification.

Strings are embedded as `List Char` (`Str`), so that the Python string
operations the scripts use (`strip`, `replace`, `splitlines`, `split`,
JSON escaping) become structurally recursive Lean functions that the
kernel can evaluate on concrete inputs.
-/

/-- Strings of the embedded programs, as lists of characters. -/
abbrev Str := List Char

/-- The ASCII whitespace characters stripped by Python's `str.strip()`
(space, tab, newline, carriage return, vertical tab, form feed).
Python additionally strips a few non-ASCII Unicode space characters,
which never occur in the inputs considered here. -/
def pyIsSpace (c : Char) : Bool :=
  c = ' ' || c = '\t' || c = '\n' || c = '\x0d' || c = '\x0b' || c = '\x0c'

/-- Leading-whitespace removal (Python `str.lstrip()`). -/
def lstrip (s : Str) : Str := s.dropWhile pyIsSpace

/-- Trailing-whitespace removal (Python `str.rstrip()`). -/
def rstrip (s : Str) : Str := (s.reverse.dropWhile pyIsSpace).reverse

/-- Python `str.strip()`: remove leading and trailing whitespace. -/
def strip (s : Str) : Str := rstrip (lstrip s)

/-- Python `str.splitlines()` on text whose only line terminator is
`'\n'` (both scripts write `'\n'`-terminated lines; `Path.read_text`
translates `"\r\n"` to `"\n"` before `splitlines` is applied).
A trailing newline does not produce a final empty line. -/
def splitLines : Str → List Str
  | [] => []
  | c :: cs =>
    if c = '\n' then [] :: splitLines cs
    else
      match splitLines cs with
      | [] => [[c]]
      | l :: ls => (c :: l) :: ls

/-- Render a list of lines as file content, each line terminated by `'\n'`
(the form in which both scripts write their output files). -/
def renderLines (lines : List Str) : Str := lines.flatMap (fun l => l ++ ['\n'])

/-- Number of lines of a file's content. -/
def countLines (s : Str) : Nat := (splitLines s).length

/-- Fuelled worker for `replaceAll`.  One unit of fuel is spent per
character position, which suffices because every step consumes at least
one character of the remaining input. -/
def replaceAllAux (pat : Str) : Nat → Str → Str
  | _, [] => []
  | 0, s => s
  | fuel + 1, c :: rest =>
    if pat ≠ [] ∧ pat.isPrefixOf (c :: rest) then
      replaceAllAux pat fuel ((c :: rest).drop pat.length)
    else
      c :: replaceAllAux pat fuel rest

/-- Python `s.replace(pat, "")`: delete every left-to-right,
non-overlapping occurrence of `pat` in `s`.  For the empty pattern Python
inserts the empty replacement between characters, leaving `s` unchanged. -/
def replaceAll (pat s : Str) : Str := replaceAllAux pat s.length s

/-- Worker for `pySplit`, accumulating the current field in reverse. -/
def pySplitAux (sep : Char) : Str → Str → List Str
  | [], acc => [acc.reverse]
  | c :: cs, acc =>
    if c = sep then acc.reverse :: pySplitAux sep cs []
    else pySplitAux sep cs (c :: acc)

/-- Python `s.split(sep)` for a one-character separator. -/
def pySplit (sep : Char) (s : Str) : List Str := pySplitAux sep s []

/-- POSIX path join used by `pathlib`'s `/` operator on relative parts. -/
def joinPath (a b : Str) : Str := a ++ '/' :: b

/-- Python `os.path.dirname` (POSIX rules): everything before the final
`'/'`, with trailing slashes then stripped unless the result is all
slashes; the empty string when the path holds no `'/'`. -/
def dirname (p : Str) : Str :=
  let head := (p.reverse.dropWhile (fun c => c ≠ '/')).reverse
  if head.all (fun c => c = '/') then head
  else (head.reverse.dropWhile (fun c => c = '/')).reverse

/-! ## JSON serialization (`json.dumps([s], ensure_ascii=False)`) -/

/-- Lower-case hexadecimal digit for `n < 16`, as produced by Python's
`"\u%04x"` formatting of escaped control characters. -/
def hexDigit (n : Nat) : Char :=
  if n < 10 then Char.ofNat (48 + n) else Char.ofNat (87 + n)

/-- Per-character JSON string escaping of Python's `json` module with
`ensure_ascii=False`: backslash, double quote and the C0 control
characters are escaped (named escapes for the five common ones, `\u00XX`
for the rest); every other character is emitted verbatim. -/
def escapeChar (c : Char) : Str :=
  if c = '\\' then ['\\', '\\']
  else if c = '"' then ['\\', '"']
  else if c = '\x08' then ['\\', 'b']
  else if c = '\x0c' then ['\\', 'f']
  else if c = '\n' then ['\\', 'n']
  else if c = '\x0d' then ['\\', 'r']
  else if c = '\t' then ['\\', 't']
  else if c.toNat < 32 then
    ['\\', 'u', '0', '0', hexDigit (c.toNat / 16), hexDigit (c.toNat % 16)]
  else [c]

/-- JSON string-body escaping of a whole string. -/
def escape (s : Str) : Str := s.flatMap escapeChar

/-- The text `json.dumps([s], ensure_ascii=False)`: a one-element JSON
array holding the string `s` (no added whitespace, the form written by
both scripts for every output line). -/
def dumpLine (s : Str) : Str := '[' :: '"' :: (escape s ++ ['"', ']'])

/-! ## JSON parsing of the scripts' output lines (`json.loads`) -/

/-- Value of a hexadecimal digit character, as accepted after `\u` by
`json.loads`. -/
def parseHex (c : Char) : Option Nat :=
  if '0' ≤ c ∧ c ≤ '9' then some (c.toNat - 48)
  else if 'a' ≤ c ∧ c ≤ 'f' then some (c.toNat - 87)
  else if 'A' ≤ c ∧ c ≤ 'F' then some (c.toNat - 55)
  else none

/-- Single-character JSON escapes accepted by `json.loads`. -/
def unescapeChar (e : Char) : Option Char :=
  if e = '"' then some '"'
  else if e = '\\' then some '\\'
  else if e = '/' then some '/'
  else if e = 'b' then some '\x08'
  else if e = 'f' then some '\x0c'
  else if e = 'n' then some '\n'
  else if e = 'r' then some '\x0d'
  else if e = 't' then some '\t'
  else none

/-- Parse the body of a JSON string literal (the part after the opening
quote) exactly as Python's strict `json.loads` does for the escape forms
the scripts emit: returns the decoded string and the input remaining
after the closing quote.  Raw control characters are rejected (strict
mode); surrogate-pair `\u` escapes are not needed because the writers
only emit `\u00XX` for C0 control characters. -/
def parseStringBody : Str → Option (Str × Str)
  | [] => none
  | c :: rest =>
    if c = '"' then some ([], rest)
    else if c = '\\' then
      match rest with
      | [] => none
      | e :: rest2 =>
        if e = 'u' then
          match rest2 with
          | h1 :: h2 :: h3 :: h4 :: rest3 =>
            match parseHex h1, parseHex h2, parseHex h3, parseHex h4 with
            | some a, some b, some c2, some d =>
              match parseStringBody rest3 with
              | some (s, r) => some (Char.ofNat (4096 * a + 256 * b + 16 * c2 + d) :: s, r)
              | none => none
            | _, _, _, _ => none
          | _ => none
        else
          match unescapeChar e with
          | some d =>
            match parseStringBody rest2 with
            | some (s, r) => some (d :: s, r)
            | none => none
          | none => none
    else if c.toNat < 32 then none
    else
      match parseStringBody rest with
      | some (s, r) => some (c :: s, r)
      | none => none

/-- `json.loads` restricted to the grammar of the scripts' output lines:
a JSON array of exactly one string literal, with no surrounding
whitespace (the exact shape `json.dumps` produces).  Returns the parsed
array. -/
def parseJsonLine (s : Str) : Option (List Str) :=
  match s with
  | '[' :: '"' :: rest =>
    match parseStringBody rest with
    | some (s1, [']']) => some [s1]
    | _ => none
  | _ => none

/-! ## Embedding of `src/inference_prompt.py` -/

/-- JSON values, as returned by `json.loads` on a prompt line. -/
inductive Json where
  | str : Str → Json
  | num : Int → Json
  | bool : Bool → Json
  | null : Json
  | arr : List Json → Json
  | obj : List (Str × Json) → Json

/-- The Python exceptions the embedded code paths can raise. -/
inductive PyErr where
  | jsonDecodeError
  | indexError
  | keyError
  | typeError
  | fileNotFoundError
  | valueError
deriving DecidableEq, Repr

/-- The characters of the key `"prompt"`. -/
def promptKey : Str := "prompt".toList

/-- Python `dict` lookup `obj[k]` on the association list of an object:
`some` the value of the first matching key, `none` when absent. -/
def objLookup (k : Str) : List (Str × Json) → Option Json
  | [] => none
  | (k', v) :: rest => if k' = k then some v else objLookup k rest

/-- One iteration of the loop body of `load_prompts`, for one raw input
line, parameterized by `jloads`, the behavior of the external
`json.loads` on the line's text:
the line is stripped; an empty result is skipped (`ok none`); a line
whose first character is `'{'` or `'['` is parsed as JSON, yielding the
first element of an array (`IndexError` when empty), the `"prompt"`
field of an object (`KeyError` when absent), or `TypeError` for any
other value subscripted by a string; any other line yields itself as the
prompt. -/
def parsePromptLine (jloads : Str → Except PyErr Json) (rawLine : Str) :
    Except PyErr (Option Json) :=
  match strip rawLine with
  | [] => .ok none
  | c :: cs =>
    if c = '{' ∨ c = '[' then
      match jloads (c :: cs) with
      | .error e => .error e
      | .ok (.arr []) => .error .indexError
      | .ok (.arr (v :: _)) => .ok (some v)
      | .ok (.obj fields) =>
        match objLookup promptKey fields with
        | some v => .ok (some v)
        | none => .error .keyError
      | .ok _ => .error .typeError
    else
      .ok (some (.str (c :: cs)))

/-- `load_prompts`, applied (as `main` does, via `list(...)`) to every
line of the input file: the prompts of all non-blank lines in order, or
the first exception raised. -/
def load_prompts (jloads : Str → Except PyErr Json) : List Str → Except PyErr (List Json)
  | [] => .ok []
  | l :: ls =>
    match parsePromptLine jloads l with
    | .error e => .error e
    | .ok none => load_prompts jloads ls
    | .ok (some p) =>
      match load_prompts jloads ls with
      | .error e => .error e
      | .ok ps => .ok (p :: ps)

/-- The `generate` closure built by `build_generator`: the engine is
modeled as a pure per-prompt completion function `eng` (deterministic,
non-sampling configuration), and each returned `generated_text` is the
prompt concatenated with the engine's new tokens, exactly as the source
builds it. -/
def generate (eng : Str → Str) (prompts : List Str) : List Str :=
  prompts.map (fun p => p ++ eng p)

/-- The output normalization of `main`'s loop body:
`output["generated_text"].replace(prompt, "").strip()`. -/
def normalize_output (prompt generated : Str) : Str :=
  strip (replaceAll prompt generated)

/-- The output-file lines produced for one batch of prompts: zip the
batch's generated texts with the prompts, normalize, and serialize each
as a one-element JSON array. -/
def batchLines (eng : Str → Str) (batch : List Str) : List Str :=
  ((generate eng batch).zip batch).map
    (fun op => dumpLine (normalize_output op.2 op.1))

/-- `vllm`'s requirement that every prompt submitted to `llm.generate`
be a string: the batch of JSON prompt values as strings, or `TypeError`. -/
def toStrBatch : List Json → Except PyErr (List Str)
  | [] => .ok []
  | .str s :: rest =>
    match toStrBatch rest with
    | .error e => .error e
    | .ok qs => .ok (s :: qs)
  | _ :: _ => .error .typeError

/-- Fuelled worker for `chunkList`.  One unit of fuel is spent per chunk;
fuel equal to the list length suffices for any positive chunk size. -/
def chunkListAux (b : Nat) : Nat → List α → List (List α)
  | _, [] => []
  | 0, _ :: _ => []
  | fuel + 1, x :: xs => (x :: xs).take b :: chunkListAux b fuel ((x :: xs).drop b)

/-- The batching of `main`'s loop `for i in range(0, len(prompts),
batch_size): prompts[i:i + batch_size]`: contiguous chunks of size `b`,
the final chunk possibly smaller.  Only meaningful for `0 < b`; `main`
models Python's `ValueError` for step `0` before this is reached. -/
def chunkList (b : Nat) (l : List α) : List (List α) := chunkListAux b l.length l

/-- The writing loop of `main`: for each batch in order, convert the
prompts to strings (`TypeError` aborts the loop, leaving the file as
already flushed), generate, normalize, serialize, append the batch's
newline-terminated lines to the file and flush.  Returns the final file
content and the loop's outcome. -/
def writeLoop (eng : Str → Str) : List (List Json) → Str → Str × Except PyErr Unit
  | [], file => (file, .ok ())
  | batch :: rest, file =>
    match toStrBatch batch with
    | .error e => (file, .error e)
    | .ok qs => writeLoop eng rest (file ++ renderLines (batchLines eng qs))

/-- Observable outcome of one invocation of the generation runner:
whether the engine was initialized (`build_generator` was entered),
the final content of the output file (`none` when it was never
created/truncated), and the invocation's result. -/
structure RunOutcome where
  engineInitialized : Bool
  outputFile : Option Str
  result : Except PyErr Unit

/-- `main` of `inference_prompt.py`:
`prompts = list(load_prompts(input_file))` (all lines parsed up front, a
parse error aborts here);
`os.makedirs(os.path.dirname(output_file), exist_ok=True)` (Python's
`os.makedirs("")` raises `FileNotFoundError`, so a bare filename aborts
here; with a directory component the directory is created and the run
proceeds);
`build_generator(args)` (engine initialization, an external step modeled
as succeeding);
`range(0, len(prompts), batch_size)` raises `ValueError` for step `0`
after the output file has been opened (truncated);
otherwise the batched write loop runs over the chunked prompt list. -/
def py_main (jloads : Str → Except PyErr Json) (eng : Str → Str)
    (inputLines : List Str) (outPath : Str) (b : Nat) : RunOutcome :=
  match load_prompts jloads inputLines with
  | .error e => ⟨false, none, .error e⟩
  | .ok prompts =>
    if dirname outPath = [] then ⟨false, none, .error .fileNotFoundError⟩
    else if b = 0 then ⟨true, some [], .error .valueError⟩
    else
      let r := writeLoop eng (chunkList b prompts) []
      ⟨true, some r.1, r.2⟩

/-- Content of the output file for an all-string prompt list `qs` and
batch size `b`, as written by `main`'s loop run to completion. -/
def runOutputFile (eng : Str → Str) (b : Nat) (qs : List Str) : Str :=
  (writeLoop eng (chunkList b (qs.map Json.str)) []).1

/-- Content of the output file when the run stops (crashes) after the
first `n` batches have been processed and flushed: the write loop run
over only the first `n` chunks. -/
def fileAfter (eng : Str → Str) (b : Nat) (qs : List Str) (n : Nat) : Str :=
  (writeLoop eng ((chunkList b (qs.map Json.str)).take n) []).1

/-! ## Embedding of `src/download_data.py` -/

/-- The fixed eleven-pair catalog `PAIRS`. -/
def PAIRS : List Str :=
  ["eng_ben".toList, "eng_guj".toList, "eng_hin".toList, "eng_kan".toList,
   "eng_mal".toList, "eng_mar".toList, "eng_ori".toList, "eng_pan".toList,
   "eng_tam".toList, "eng_tel".toList, "eng_urd".toList]

/-- A fetched dataset subset, with its two parallel text columns
`ds["src_txt"]` and `ds["tgt_txt"]`. -/
structure Dataset where
  src_txt : List Str
  tgt_txt : List Str

/-- `save_jsonl`: the content of the file written for a list of strings
(one `json.dump([ln], ensure_ascii=False)` array per line). -/
def save_jsonl (lines : List Str) : Str := renderLines (lines.map dumpLine)

/-- `dump_pair`, with the external `load_dataset` fetch modeled as a
function from (subset, split argument) to the fetched dataset: splits
the pair name at `'_'` (the two-variable unpacking raises `ValueError`
unless exactly two parts result), fetches, and returns the two (path,
content) file writes in order, source column first. -/
def dump_pair (fetch : Str → Str → Dataset) (subset pair outRoot : Str) :
    Except PyErr (List (Str × Str)) :=
  match pySplit '_' pair with
  | [src_lang, tgt_lang] =>
    let ds := fetch subset (src_lang ++ '_' :: tgt_lang)
    .ok
      [(joinPath (joinPath (joinPath outRoot subset) pair)
          ("doc.".toList ++ src_lang ++ ".jsonl".toList),
        save_jsonl ds.src_txt),
       (joinPath (joinPath (joinPath outRoot subset) pair)
          ("doc.".toList ++ tgt_lang ++ ".jsonl".toList),
        save_jsonl ds.tgt_txt)]
  | _ => .error .valueError

/-! ## Concrete fixtures

Executable instances used to evaluate the universal theorems on
concrete inputs. -/

/-- A `json.loads` behavior that rejects every line (malformed JSON). -/
def jloadsStub : Str → Except PyErr Json := fun _ => .error .jsonDecodeError

/-- A `json.loads` behavior returning the empty JSON array for the line
`[]` and failing on everything else. -/
def jloadsEmptyArr : Str → Except PyErr Json :=
  fun s => if s = "[]".toList then .ok (.arr []) else .error .jsonDecodeError

/-- A `json.loads` behavior returning a JSON object with no "prompt"
field for the line `{}` and failing on everything else. -/
def jloadsNoPrompt : Str → Except PyErr Json :=
  fun s => if s = "{}".toList then .ok (.obj []) else .error .jsonDecodeError

/-- A deterministic engine completion function. -/
def engStub : Str → Str := fun _ => " -> ok".toList

/-- A concrete prompt list. -/
def qsW : List Str := ["alpha".toList, "beta".toList, "gamma".toList]

/-- Concrete input-file lines: two real prompts, a genuinely empty line
and a whitespace-only line. -/
def linesW : List Str := ["hi".toList, [], "  ".toList, "there".toList]

/-- A fetch behavior returning a three-row dataset for every subset and
split. -/
def fetchW : Str → Str → Dataset :=
  fun _ _ => ⟨["a1".toList, "a2".toList, "a3".toList],
              ["b1".toList, "b2".toList, "b3".toList]⟩

/-! ## Lemmas: fuelled recursions are fuel-independent -/

theorem chunkListAux_fuel (b : Nat) (hb : 0 < b) :
    ∀ (f1 f2 : Nat) (l : List α), l.length ≤ f1 → l.length ≤ f2 →
      chunkListAux b f1 l = chunkListAux b f2 l := by
  intro f1
  induction f1 with
  | zero =>
    intro f2 l h1 _
    have : l = [] := by cases l <;> simp_all
    subst this
    simp [chunkListAux]
  | succ n ih =>
    intro f2 l h1 h2
    cases l with
    | nil => simp [chunkListAux]
    | cons x xs =>
      cases f2 with
      | zero => simp at h2
      | succ m =>
        simp only [chunkListAux]
        congr 1
        apply ih
        · simp only [List.length_drop, List.length_cons] at *
          omega
        · simp only [List.length_drop, List.length_cons] at *
          omega

theorem chunkList_cons (b : Nat) (hb : 0 < b) (l : List α) (hl : l ≠ []) :
    chunkList b l = l.take b :: chunkList b (l.drop b) := by
  cases l with
  | nil => exact absurd rfl hl
  | cons x xs =>
    simp only [chunkList, List.length_cons, chunkListAux]
    congr 1
    apply chunkListAux_fuel b hb
    · simp only [List.length_drop, List.length_cons]
      omega
    · exact Nat.le_refl _

theorem replaceAllAux_fuel (pat : Str) :
    ∀ (f1 f2 : Nat) (s : Str), s.length ≤ f1 → s.length ≤ f2 →
      replaceAllAux pat f1 s = replaceAllAux pat f2 s := by
  intro f1
  induction f1 with
  | zero =>
    intro f2 s h1 _
    have : s = [] := by cases s <;> simp_all
    subst this
    simp [replaceAllAux]
  | succ n ih =>
    intro f2 s h1 h2
    cases s with
    | nil => simp [replaceAllAux]
    | cons c rest =>
      cases f2 with
      | zero => simp at h2
      | succ m =>
        simp only [replaceAllAux]
        by_cases h : pat ≠ [] ∧ pat.isPrefixOf (c :: rest)
        · rw [if_pos h, if_pos h]
          apply ih
          · have hp : 1 ≤ pat.length := by
              cases hpat : pat <;> simp_all
            simp only [List.length_drop, List.length_cons] at *
            omega
          · have hp : 1 ≤ pat.length := by
              cases hpat : pat <;> simp_all
            simp only [List.length_drop, List.length_cons] at *
            omega
        · rw [if_neg h, if_neg h]
          congr 1
          apply ih
          · simp only [List.length_cons] at h1
            omega
          · simp only [List.length_cons] at h2
            omega

theorem replaceAll_nil_pat (s : Str) : replaceAll [] s = s := by
  suffices h : ∀ (fuel : Nat) (t : Str), replaceAllAux [] fuel t = t by
    exact h s.length s
  intro fuel
  induction fuel with
  | zero => intro t; cases t <;> simp [replaceAllAux]
  | succ n ih =>
    intro t
    cases t with
    | nil => simp [replaceAllAux]
    | cons c rest => simp [replaceAllAux, ih]

/-- Deleting every occurrence of `p` from `p ++ s` deletes the leading
copy of `p` and then scans exactly `s`. -/
theorem replaceAll_append_self (p s : Str) : replaceAll p (p ++ s) = replaceAll p s := by
  cases p with
  | nil => simp [replaceAll_nil_pat]
  | cons a p' =>
    have hpre : (a :: p').isPrefixOf (a :: (p' ++ s)) = true := by
      have h := List.isPrefixOf_iff_prefix.mpr (List.prefix_append (a :: p') s)
      simp only [List.cons_append] at h
      exact h
    have hdrop : List.drop (p'.length + 1) (a :: (p' ++ s)) = s := by
      have h := List.drop_left (a :: p') s
      simp only [List.cons_append, List.length_cons] at h
      exact h
    simp only [replaceAll, List.cons_append, List.length_cons, List.length_append,
      replaceAllAux, List.append_eq]
    rw [if_pos ⟨by simp, hpre⟩]
    rw [show List.drop (p'.length + 1) (a :: (p' ++ s)) = s from hdrop]
    apply replaceAllAux_fuel
    · omega
    · exact Nat.le_refl _

/-! ## Lemmas: chunking -/

theorem chunkListAux_map (b : Nat) (f : α → β) :
    ∀ (fuel : Nat) (l : List α),
      chunkListAux b fuel (l.map f) = (chunkListAux b fuel l).map (List.map f) := by
  intro fuel
  induction fuel with
  | zero => intro l; cases l <;> simp [chunkListAux]
  | succ n ih =>
    intro l
    cases l with
    | nil => simp [chunkListAux]
    | cons x xs =>
      simp only [chunkListAux, List.map_cons]
      rw [← ih ((x :: xs).drop b)]
      simp only [List.map_take, List.map_drop, List.map_cons]

/-- Chunking commutes with `map`. -/
theorem chunkList_map (b : Nat) (f : α → β) (l : List α) :
    chunkList b (l.map f) = (chunkList b l).map (List.map f) := by
  simp only [chunkList, List.length_map]
  exact chunkListAux_map b f l.length l

theorem chunkListAux_flatten (b : Nat) (hb : 0 < b) :
    ∀ (fuel : Nat) (l : List α), l.length ≤ fuel →
      (chunkListAux b fuel l).flatten = l := by
  intro fuel
  induction fuel with
  | zero =>
    intro l h
    have : l = [] := by cases l <;> simp_all
    subst this
    simp [chunkListAux]
  | succ n ih =>
    intro l h
    cases l with
    | nil => simp [chunkListAux]
    | cons x xs =>
      simp only [chunkListAux, List.flatten_cons]
      rw [ih ((x :: xs).drop b)]
      · exact List.take_append_drop b (x :: xs)
      · simp only [List.length_drop, List.length_cons] at *
        omega

/-- For a positive chunk size, the chunks concatenate back to the list:
no element is dropped, duplicated or reordered by batching. -/
theorem chunkList_flatten (b : Nat) (hb : 0 < b) (l : List α) :
    (chunkList b l).flatten = l :=
  chunkListAux_flatten b hb l.length l (Nat.le_refl _)

/-- Mapping a function over every element of every chunk and
concatenating is the same as mapping over the original list. -/
theorem chunkList_flatMap_map (b : Nat) (hb : 0 < b) (f : α → β) (l : List α) :
    (chunkList b l).flatMap (fun c => c.map f) = l.map f := by
  rw [List.flatMap_def, ← chunkList_map b f l, chunkList_flatten b hb]

/-! ## Lemmas: the per-batch pipeline -/

/-- Since `build_generator`'s closure returns `prompt + new_tokens` for
each prompt of the batch, zipping outputs with prompts pairs each prompt
with its own completion: the batch's lines are a per-prompt `map`. -/
theorem batchLines_eq (eng : Str → Str) (batch : List Str) :
    batchLines eng batch =
      batch.map (fun p => dumpLine (normalize_output p (p ++ eng p))) := by
  have hz := List.zip_map' (fun p => p ++ eng p) id batch
  simp only [List.map_id] at hz
  simp only [batchLines, generate, hz, List.map_map]
  rfl

theorem toStrBatch_map_str (l : List Str) :
    toStrBatch (l.map Json.str) = .ok l := by
  induction l with
  | nil => rfl
  | cons x xs ih => simp [toStrBatch, ih]

theorem renderLines_append (a c : List Str) :
    renderLines (a ++ c) = renderLines a ++ renderLines c := by
  simp [renderLines]

/-- The write loop over all-string batches never raises and appends each
batch's rendered lines in order. -/
theorem writeLoop_str (eng : Str → Str) (chunks : List (List Str)) :
    ∀ file : Str,
      writeLoop eng (chunks.map (List.map Json.str)) file =
        (file ++ renderLines (chunks.flatMap (batchLines eng)), .ok ()) := by
  induction chunks with
  | nil => intro file; simp [writeLoop, renderLines]
  | cons c rest ih =>
    intro file
    simp only [List.map_cons, writeLoop, toStrBatch_map_str, ih, List.flatMap_cons,
      renderLines_append, List.append_assoc]

/-- Normal form of the whole run's output file, for a positive batch
size: one rendered line per prompt, in prompt order, each the serialized
normalization of that prompt's own completion. -/
theorem runOutputFile_eq (eng : Str → Str) (b : Nat) (hb : 0 < b) (qs : List Str) :
    runOutputFile eng b qs =
      renderLines (qs.map (fun p => dumpLine (normalize_output p (p ++ eng p)))) := by
  have hfun : batchLines eng =
      fun batch => batch.map (fun p => dumpLine (normalize_output p (p ++ eng p))) :=
    funext (batchLines_eq eng)
  simp only [runOutputFile, chunkList_map b Json.str qs, writeLoop_str, List.nil_append, hfun]
  congr 1
  exact chunkList_flatMap_map b hb _ qs

/-! ## Lemmas: line structure of the written files -/

theorem splitLines_append_line (l : Str) (rest : Str) (h : '\n' ∉ l) :
    splitLines (l ++ '\n' :: rest) = l :: splitLines rest := by
  induction l with
  | nil => simp [splitLines]
  | cons c cs ih =>
    have hc : ¬ c = '\n' := fun hc => h (hc ▸ List.mem_cons_self c cs)
    have hcs : '\n' ∉ cs := fun hm => h (List.mem_cons_of_mem c hm)
    simp only [List.cons_append, splitLines, if_neg hc, List.append_eq, ih hcs]

/-- Splitting a file made of newline-terminated, newline-free lines
recovers exactly those lines: every line is complete, none is merged,
and there is no partial trailing line. -/
theorem splitLines_renderLines (lines : List Str)
    (h : ∀ l ∈ lines, '\n' ∉ l) :
    splitLines (renderLines lines) = lines := by
  induction lines with
  | nil => rfl
  | cons l ls ih =>
    simp only [renderLines, List.flatMap_cons, List.append_assoc, List.singleton_append]
    rw [splitLines_append_line l _ (h l (List.mem_cons_self l ls))]
    rw [show (ls.flatMap fun l => l ++ ['\n']) = renderLines ls from rfl]
    rw [ih (fun x hx => h x (List.mem_cons_of_mem l hx))]

theorem hexDigit_lt_16_ne_newline : ∀ n, n < 16 → hexDigit n ≠ '\n' := by decide

theorem newline_not_mem_escapeChar (c : Char) : '\n' ∉ escapeChar c := by
  unfold escapeChar
  split_ifs with h1 h2 h3 h4 h5 h6 h7 h8
  · decide
  · decide
  · decide
  · decide
  · decide
  · decide
  · decide
  · intro hm
    have hhi : c.toNat / 16 < 16 := by omega
    have hlo : c.toNat % 16 < 16 := by omega
    simp only [List.mem_cons, List.not_mem_nil, or_false] at hm
    rcases hm with h | h | h | h | h | h
    · exact absurd h (by decide)
    · exact absurd h (by decide)
    · exact absurd h (by decide)
    · exact absurd h (by decide)
    · exact hexDigit_lt_16_ne_newline _ hhi h.symm
    · exact hexDigit_lt_16_ne_newline _ hlo h.symm
  · intro hm
    simp only [List.mem_cons, List.not_mem_nil, or_false] at hm
    exact h5 hm.symm

theorem newline_not_mem_escape (s : Str) : '\n' ∉ escape s := by
  intro hm
  simp only [escape, List.mem_flatMap] at hm
  obtain ⟨c, _, hc⟩ := hm
  exact newline_not_mem_escapeChar c hc

theorem newline_not_mem_dumpLine (s : Str) : '\n' ∉ dumpLine s := by
  intro hm
  simp only [dumpLine, List.mem_cons, List.mem_append] at hm
  rcases hm with h | h | h | h
  · exact absurd h (by decide)
  · exact absurd h (by decide)
  · exact newline_not_mem_escape s h
  · simp only [List.mem_cons, List.not_mem_nil, or_false] at h
    rcases h with h | h <;> exact absurd h (by decide)

/-- `save_jsonl` writes exactly one line per input string. -/
theorem countLines_save_jsonl (lines : List Str) :
    countLines (save_jsonl lines) = lines.length := by
  unfold countLines save_jsonl
  rw [splitLines_renderLines]
  · exact List.length_map lines dumpLine
  · intro l hl
    simp only [List.mem_map] at hl
    obtain ⟨s, _, rfl⟩ := hl
    exact newline_not_mem_dumpLine s

/-! ## Lemmas: JSON round trip -/

theorem psb_quote (rest : Str) : parseStringBody ('"' :: rest) = some ([], rest) := by
  rw [parseStringBody.eq_def]
  simp

theorem psb_esc_step (e d : Char) (he : ¬ e = 'u') (hd : unescapeChar e = some d)
    (rest2 : Str) :
    parseStringBody ('\\' :: e :: rest2) =
      (parseStringBody rest2).map (fun p => (d :: p.1, p.2)) := by
  rw [parseStringBody.eq_def]
  simp only [show ¬ ('\\' : Char) = '"' by decide, if_false, if_neg he, hd,
    show (('\\' : Char) = '\\') = True by simp]
  simp only [if_true]
  cases parseStringBody rest2 with
  | none => rfl
  | some p => rfl

theorem psb_u_step (h3 h4 : Char) (a3 a4 : Nat) (hh3 : parseHex h3 = some a3)
    (hh4 : parseHex h4 = some a4) (rest3 : Str) :
    parseStringBody ('\\' :: 'u' :: '0' :: '0' :: h3 :: h4 :: rest3) =
      (parseStringBody rest3).map (fun p => (Char.ofNat (16 * a3 + a4) :: p.1, p.2)) := by
  rw [parseStringBody.eq_def]
  simp only [show ¬ ('\\' : Char) = '"' by decide, if_false,
    show (('\\' : Char) = '\\') = True by simp, if_true,
    show (('u' : Char) = 'u') = True by simp,
    show parseHex '0' = some 0 by decide, hh3, hh4]
  cases parseStringBody rest3 with
  | none => rfl
  | some p => simp

theorem psb_raw_step (c : Char) (h1 : ¬ c = '"') (h2 : ¬ c = '\\') (h3 : ¬ c.toNat < 32)
    (rest : Str) :
    parseStringBody (c :: rest) =
      (parseStringBody rest).map (fun p => (c :: p.1, p.2)) := by
  rw [parseStringBody.eq_def]
  simp only [if_neg h1, if_neg h2, if_neg h3]
  cases parseStringBody rest with
  | none => rfl
  | some p => rfl

theorem parseHex_hexDigit : ∀ n, n < 16 → parseHex (hexDigit n) = some n := by decide

/-- Parsing undoes escaping: the string-body parser consumes exactly the
escaped form of `s` up to the closing quote and returns `s` unchanged. -/
theorem parse_escape (s : Str) :
    ∀ rest, parseStringBody (escape s ++ '"' :: rest) = some (s, rest) := by
  induction s with
  | nil => intro rest; simp only [escape, List.flatMap_nil, List.nil_append, psb_quote]
  | cons c cs ih =>
    intro rest
    have hesc : escape (c :: cs) = escapeChar c ++ escape cs := by simp [escape]
    rw [hesc, List.append_assoc]
    by_cases h1 : c = '\\'
    · subst h1
      rw [show escapeChar '\\' ++ (escape cs ++ '"' :: rest)
            = '\\' :: '\\' :: (escape cs ++ '"' :: rest) from rfl]
      rw [psb_esc_step '\\' '\\' (by decide) (by decide), ih]
      rfl
    by_cases h2 : c = '"'
    · subst h2
      rw [show escapeChar '"' ++ (escape cs ++ '"' :: rest)
            = '\\' :: '"' :: (escape cs ++ '"' :: rest) from rfl]
      rw [psb_esc_step '"' '"' (by decide) (by decide), ih]
      rfl
    by_cases h3 : c = '\x08'
    · subst h3
      rw [show escapeChar '\x08' ++ (escape cs ++ '"' :: rest)
            = '\\' :: 'b' :: (escape cs ++ '"' :: rest) from rfl]
      rw [psb_esc_step 'b' '\x08' (by decide) (by decide), ih]
      rfl
    by_cases h4 : c = '\x0c'
    · subst h4
      rw [show escapeChar '\x0c' ++ (escape cs ++ '"' :: rest)
            = '\\' :: 'f' :: (escape cs ++ '"' :: rest) from rfl]
      rw [psb_esc_step 'f' '\x0c' (by decide) (by decide), ih]
      rfl
    by_cases h5 : c = '\n'
    · subst h5
      rw [show escapeChar '\n' ++ (escape cs ++ '"' :: rest)
            = '\\' :: 'n' :: (escape cs ++ '"' :: rest) from rfl]
      rw [psb_esc_step 'n' '\n' (by decide) (by decide), ih]
      rfl
    by_cases h6 : c = '\x0d'
    · subst h6
      rw [show escapeChar '\x0d' ++ (escape cs ++ '"' :: rest)
            = '\\' :: 'r' :: (escape cs ++ '"' :: rest) from rfl]
      rw [psb_esc_step 'r' '\x0d' (by decide) (by decide), ih]
      rfl
    by_cases h7 : c = '\t'
    · subst h7
      rw [show escapeChar '\t' ++ (escape cs ++ '"' :: rest)
            = '\\' :: 't' :: (escape cs ++ '"' :: rest) from rfl]
      rw [psb_esc_step 't' '\t' (by decide) (by decide), ih]
      rfl
    by_cases h8 : c.toNat < 32
    · have hform : escapeChar c
          = ['\\', 'u', '0', '0', hexDigit (c.toNat / 16), hexDigit (c.toNat % 16)] := by
        simp only [escapeChar, if_neg h1, if_neg h2, if_neg h3, if_neg h4, if_neg h5,
          if_neg h6, if_neg h7, if_pos h8]
      rw [hform]
      rw [show (['\\', 'u', '0', '0', hexDigit (c.toNat / 16), hexDigit (c.toNat % 16)]
              : Str) ++ (escape cs ++ '"' :: rest)
            = '\\' :: 'u' :: '0' :: '0' :: hexDigit (c.toNat / 16)
              :: hexDigit (c.toNat % 16) :: (escape cs ++ '"' :: rest) from rfl]
      rw [psb_u_step _ _ _ _ (parseHex_hexDigit _ (by omega)) (parseHex_hexDigit _ (by omega)),
        ih]
      simp only [Option.map_some']
      rw [Nat.div_add_mod, Char.ofNat_toNat]
    · have hform : escapeChar c = [c] := by
        simp only [escapeChar, if_neg h1, if_neg h2, if_neg h3, if_neg h4, if_neg h5,
          if_neg h6, if_neg h7, if_neg h8]
      rw [hform]
      rw [show ([c] : Str) ++ (escape cs ++ '"' :: rest)
            = c :: (escape cs ++ '"' :: rest) from rfl]
      rw [psb_raw_step c h2 h1 h8, ih]
      rfl

/-- Round trip: parsing an output line written by the scripts as JSON
yields a one-element array whose single element is the original string,
exactly. -/
theorem parseJsonLine_dumpLine (s : Str) : parseJsonLine (dumpLine s) = some [s] := by
  simp only [dumpLine, parseJsonLine]
  have h := parse_escape s [']']
  simp only [show ('"' : Char) :: ']' :: [] = '"' :: [']'] from rfl] at *
  rw [show escape s ++ ['"', ']'] = escape s ++ '"' :: [']'] from rfl, h]
  rfl

/-! ## Lemmas: prompt loading and the runner's control flow -/

theorem parsePromptLine_of_blank (jloads : Str → Except PyErr Json) (l : Str)
    (h : strip l = []) : parsePromptLine jloads l = .ok none := by
  unfold parsePromptLine
  rw [h]

theorem parsePromptLine_ok_none_iff (jloads : Str → Except PyErr Json) (l : Str) :
    parsePromptLine jloads l = .ok none ↔ strip l = [] := by
  constructor
  · intro heq
    unfold parsePromptLine at heq
    cases h : strip l with
    | nil => rfl
    | cons c cs =>
      rw [h] at heq
      exfalso
      split at heq
      · simp_all
      · split at heq
        · split at heq <;> try split at heq
          all_goals simp at heq
        · simp at heq
  · exact parsePromptLine_of_blank jloads l

/-- `load_prompts` yields exactly one prompt per non-blank input line
(a line is blank when it strips to the empty string). -/
theorem load_prompts_ok_length (jloads : Str → Except PyErr Json) :
    ∀ (lines : List Str) (ps : List Json),
      load_prompts jloads lines = .ok ps →
      ps.length = (lines.filter (fun l => !(strip l).isEmpty)).length := by
  intro lines
  induction lines with
  | nil =>
    intro ps h
    simp only [load_prompts] at h
    cases h
    rfl
  | cons l ls ih =>
    intro ps h
    simp only [load_prompts] at h
    cases hp : parsePromptLine jloads l with
    | error e => rw [hp] at h; cases h
    | ok o =>
      rw [hp] at h
      cases o with
      | none =>
        have hblank : strip l = [] := (parsePromptLine_ok_none_iff jloads l).mp hp
        have : (!(strip l).isEmpty) = false := by
          rw [hblank]; rfl
        simp only [List.filter_cons, this, Bool.false_eq_true, if_false]
        exact ih ps h
      | some p =>
        cases hl : load_prompts jloads ls with
        | error e => rw [hl] at h; cases h
        | ok ps' =>
          rw [hl] at h
          cases h
          have hblank : strip l ≠ [] := by
            intro hb
            have := parsePromptLine_of_blank jloads l hb
            rw [this] at hp
            cases hp
          have : (!(strip l).isEmpty) = true := by
            cases hs : strip l with
            | nil => exact absurd hs hblank
            | cons a as => rfl
          simp only [List.filter_cons, this, if_true, List.length_cons]
          rw [ih ps' hl]

/-- If any input line raises inside `load_prompts`, the whole
`list(load_prompts(...))` call raises (possibly an earlier line's
error): no line is skipped and no prompt list is produced. -/
theorem load_prompts_error_of_mem (jloads : Str → Except PyErr Json) :
    ∀ (lines : List Str) (l : Str) (e : PyErr), l ∈ lines →
      parsePromptLine jloads l = .error e →
      ∃ e', load_prompts jloads lines = .error e' := by
  intro lines
  induction lines with
  | nil => intro l e hmem _; cases hmem
  | cons a as ih =>
    intro l e hmem hl
    rcases List.mem_cons.mp hmem with rfl | hmem'
    · exact ⟨e, by simp only [load_prompts, hl]⟩
    · cases hpa : parsePromptLine jloads a with
      | error e2 => exact ⟨e2, by simp only [load_prompts, hpa]⟩
      | ok o =>
        obtain ⟨e', he'⟩ := ih l e hmem' hl
        cases o with
        | none => exact ⟨e', by simp only [load_prompts, hpa, he']⟩
        | some p => exact ⟨e', by simp only [load_prompts, hpa, he']⟩

/-- A `load_prompts` failure aborts `main` before directory creation,
before engine initialization and before the output file is opened. -/
theorem py_main_of_load_error (jloads : Str → Except PyErr Json) (eng : Str → Str)
    (inputLines : List Str) (outPath : Str) (b : Nat) (e : PyErr)
    (h : load_prompts jloads inputLines = .error e) :
    py_main jloads eng inputLines outPath b = ⟨false, none, .error e⟩ := by
  simp only [py_main, h]

/-- On a successful prompt load with a real directory component and a
positive batch size, `main` initializes the engine and runs the write
loop over the chunked prompts. -/
theorem py_main_of_load_ok (jloads : Str → Except PyErr Json) (eng : Str → Str)
    (inputLines : List Str) (outPath : Str) (b : Nat) (ps : List Json)
    (h : load_prompts jloads inputLines = .ok ps)
    (hdir : dirname outPath ≠ []) (hb : b ≠ 0) :
    py_main jloads eng inputLines outPath b =
      ⟨true, some (writeLoop eng (chunkList b ps) []).1,
        (writeLoop eng (chunkList b ps) []).2⟩ := by
  simp only [py_main, h, if_neg hdir, if_neg hb]

theorem parsePromptLine_jloads_error (jloads : Str → Except PyErr Json)
    (l : Str) (c : Char) (cs : Str) (e : PyErr)
    (hs : strip l = c :: cs) (hc : c = '{' ∨ c = '[')
    (hj : jloads (c :: cs) = .error e) :
    parsePromptLine jloads l = .error e := by
  simp only [parsePromptLine, hs, if_pos hc, hj]

theorem parsePromptLine_arr_head (jloads : Str → Except PyErr Json)
    (l : Str) (c : Char) (cs : Str) (v : Json) (vs : List Json)
    (hs : strip l = c :: cs) (hc : c = '{' ∨ c = '[')
    (hj : jloads (c :: cs) = .ok (.arr (v :: vs))) :
    parsePromptLine jloads l = .ok (some v) := by
  simp only [parsePromptLine, hs, if_pos hc, hj]

theorem parsePromptLine_arr_empty (jloads : Str → Except PyErr Json)
    (l : Str) (c : Char) (cs : Str)
    (hs : strip l = c :: cs) (hc : c = '{' ∨ c = '[')
    (hj : jloads (c :: cs) = .ok (.arr [])) :
    parsePromptLine jloads l = .error .indexError := by
  simp only [parsePromptLine, hs, if_pos hc, hj]

theorem parsePromptLine_obj_field (jloads : Str → Except PyErr Json)
    (l : Str) (c : Char) (cs : Str) (fields : List (Str × Json)) (v : Json)
    (hs : strip l = c :: cs) (hc : c = '{' ∨ c = '[')
    (hj : jloads (c :: cs) = .ok (.obj fields))
    (hfield : objLookup promptKey fields = some v) :
    parsePromptLine jloads l = .ok (some v) := by
  simp only [parsePromptLine, hs, if_pos hc, hj, hfield]

theorem parsePromptLine_obj_missing (jloads : Str → Except PyErr Json)
    (l : Str) (c : Char) (cs : Str) (fields : List (Str × Json))
    (hs : strip l = c :: cs) (hc : c = '{' ∨ c = '[')
    (hj : jloads (c :: cs) = .ok (.obj fields))
    (hfield : objLookup promptKey fields = none) :
    parsePromptLine jloads l = .error .keyError := by
  simp only [parsePromptLine, hs, if_pos hc, hj, hfield]

theorem parsePromptLine_raw (jloads : Str → Except PyErr Json)
    (l : Str) (c : Char) (cs : Str)
    (hs : strip l = c :: cs) (hc : ¬ (c = '{' ∨ c = '[')) :
    parsePromptLine jloads l = .ok (some (.str (c :: cs))) := by
  simp only [parsePromptLine, hs, if_neg hc]

/-! ## Claim theorems -/

/-- C1 counterexample: with prompt `"a"` and engine suffix `" a"` the
generated text is `"a a"`; `replace(prompt, "")` deletes BOTH
occurrences of `"a"`, so the normalized output is `""`, not the trimmed
suffix `"a"` that the claim (remove the prompt exactly once) predicts. -/
theorem c1_prompt_stripping_counterexample :
    normalize_output (['a']) (['a'] ++ [' ', 'a']) ≠ strip [' ', 'a'] ∧
    normalize_output (['a']) (['a'] ++ [' ', 'a']) = [] := by
  constructor
  · decide
  · decide

/-- C1 (amended): for an engine returning `prompt ++ suffix`, the
normalized output equals the suffix with every left-to-right,
non-overlapping occurrence of the prompt removed and the result trimmed
of leading and trailing whitespace; when the prompt does not occur in
the suffix this is exactly the trimmed suffix. -/
theorem c1_prompt_stripping (p s : Str) :
    normalize_output p (p ++ s) = strip (replaceAll p s) := by
  unfold normalize_output
  rw [replaceAll_append_self]

/-- C4 (confirmed): for a fixed prompt list and a deterministic engine
modeled as a pure per-prompt completion function, the output file
written by the runner's batching loop is identical for any two positive
batch sizes. -/
theorem c4_batch_size_invariance (eng : Str → Str) (qs : List Str)
    (b1 b2 : Nat) (h1 : 0 < b1) (h2 : 0 < b2) :
    runOutputFile eng b1 qs = runOutputFile eng b2 qs := by
  rw [runOutputFile_eq eng b1 h1 qs, runOutputFile_eq eng b2 h2 qs]

/-- C4 witness: batch sizes 1, 4 and the full prompt count 3 produce
the same output file on a concrete three-prompt list. -/
theorem c4_batch_size_invariance_witness :
    (0 < 1 ∧ 0 < 4 ∧ runOutputFile engStub 1 qsW = runOutputFile engStub 4 qsW) ∧
    runOutputFile engStub 4 qsW = runOutputFile engStub 3 qsW :=
  ⟨⟨by decide, by decide, c4_batch_size_invariance engStub qsW 1 4 (by decide) (by decide)⟩,
   c4_batch_size_invariance engStub qsW 4 3 (by decide) (by decide)⟩

/-- C6 (confirmed): every line of a file written by `save_jsonl`,
parsed as JSON, yields a one-element array whose single element is the
original source (or target) text exactly — no normalization is applied
by the exporter. -/
theorem c6_exporter_roundtrip (ls : List Str) :
    (splitLines (save_jsonl ls)).map parseJsonLine = ls.map (fun s => some [s]) := by
  have h1 : splitLines (save_jsonl ls) = ls.map dumpLine := by
    unfold save_jsonl
    rw [splitLines_renderLines]
    intro l hl
    obtain ⟨s, _, rfl⟩ := List.mem_map.mp hl
    exact newline_not_mem_dumpLine s
  rw [h1, List.map_map]
  exact List.map_congr_left (fun s _ => parseJsonLine_dumpLine s)

/-- C2 counterexample: the input file whose single line is the
whitespace-only (hence non-empty) line `" "` produces an output file
with zero lines, not one: `load_prompts` strips the line and skips it. -/
theorem c2_line_count_counterexample :
    (py_main jloadsStub engStub [[' ']] ("out/res.jsonl".toList) 4).outputFile = some [] ∧
    countLines (((py_main jloadsStub engStub [[' ']] ("out/res.jsonl".toList) 4).outputFile).getD [])
      ≠ ([[' ']].filter (fun l => !l.isEmpty)).length := by
  constructor
  · rfl
  · decide

/-- C2 (amended: "non-empty" line refined to "non-blank" line, since a
whitespace-only line is stripped to empty and skipped): on a successful
run the runner writes exactly one single-element-JSON-array line per
prompt, in prompt order with none dropped or merged, and the prompt
count equals the number of non-blank input lines. -/
theorem c2_one_line_per_prompt (jloads : Str → Except PyErr Json) (eng : Str → Str)
    (lines : List Str) (qs : List Str) (outPath : Str) (b : Nat)
    (hdir : dirname outPath ≠ []) (hb : 0 < b)
    (hload : load_prompts jloads lines = .ok (qs.map Json.str)) :
    py_main jloads eng lines outPath b =
      ⟨true,
       some (renderLines (qs.map (fun p => dumpLine (normalize_output p (p ++ eng p))))),
       .ok ()⟩ ∧
    qs.length = (lines.filter (fun l => !(strip l).isEmpty)).length := by
  constructor
  · rw [py_main_of_load_ok jloads eng lines outPath b _ hload hdir (by omega)]
    rw [chunkList_map b Json.str qs, writeLoop_str eng (chunkList b qs) []]
    have hfun : batchLines eng =
        fun batch => batch.map (fun p => dumpLine (normalize_output p (p ++ eng p))) :=
      funext (batchLines_eq eng)
    simp only [List.nil_append, hfun]
    rw [chunkList_flatMap_map b hb]
  · have h := load_prompts_ok_length jloads lines (qs.map Json.str) hload
    rw [List.length_map] at h
    exact h

/-- C2 witness: four input lines (two prompts, one empty line, one
whitespace-only line) produce exactly two output lines in order. -/
theorem c2_one_line_per_prompt_witness :
    dirname ("out/res.jsonl".toList) ≠ [] ∧
    load_prompts jloadsStub linesW = .ok ((["hi".toList, "there".toList]).map Json.str) ∧
    (py_main jloadsStub engStub linesW ("out/res.jsonl".toList) 2 =
      ⟨true,
       some (renderLines ((["hi".toList, "there".toList]).map
         (fun p => dumpLine (normalize_output p (p ++ engStub p))))),
       .ok ()⟩ ∧
     (["hi".toList, "there".toList] : List Str).length =
       (linesW.filter (fun l => !(strip l).isEmpty)).length) :=
  ⟨by decide, rfl,
   c2_one_line_per_prompt jloadsStub engStub linesW ["hi".toList, "there".toList]
     ("out/res.jsonl".toList) 2 (by decide) (by decide) rfl⟩

/-- C3 counterexample: the non-empty line `" h"` (leading space, not
JSON-looking) yields the STRIPPED prompt `"h"`, not the raw line `" h"`
that the claim predicts. -/
theorem c3_prompt_parsing_counterexample :
    parsePromptLine jloadsStub [' ', 'h'] = .ok (some (.str ['h'])) ∧
    parsePromptLine jloadsStub [' ', 'h'] ≠ .ok (some (.str [' ', 'h'])) := by
  have hval : parsePromptLine jloadsStub [' ', 'h'] = .ok (some (.str ['h'])) := rfl
  refine ⟨hval, ?_⟩
  intro h
  rw [hval] at h
  injection h with h1
  injection h1 with h2
  injection h2 with h3
  exact absurd h3 (by decide)

/-- C3 (amended: each line is first stripped of surrounding whitespace;
the classification and the raw-prompt case use the stripped line): for
a line stripping to `c :: cs`, when `c` is `'{'` or `'['` the stripped
line is parsed as JSON — an array yields its first element and an
object yields its `"prompt"` field — and for any other first character
the prompt is the stripped line itself. -/
theorem c3_prompt_parsing (jloads : Str → Except PyErr Json) (l : Str)
    (c : Char) (cs : Str) (hs : strip l = c :: cs) :
    ((c = '{' ∨ c = '[') → ∀ v vs, jloads (c :: cs) = .ok (.arr (v :: vs)) →
        parsePromptLine jloads l = .ok (some v)) ∧
    ((c = '{' ∨ c = '[') → ∀ fields v, jloads (c :: cs) = .ok (.obj fields) →
        objLookup promptKey fields = some v →
        parsePromptLine jloads l = .ok (some v)) ∧
    (¬ (c = '{' ∨ c = '[') → parsePromptLine jloads l = .ok (some (.str (c :: cs)))) :=
  ⟨fun hc v vs hj => parsePromptLine_arr_head jloads l c cs v vs hs hc hj,
   fun hc fields v hj hf => parsePromptLine_obj_field jloads l c cs fields v hs hc hj hf,
   fun hc => parsePromptLine_raw jloads l c cs hs hc⟩

/-- C3 witness: the raw-line case at the concrete line `"hello"`. -/
theorem c3_prompt_parsing_witness :
    strip ("hello".toList) = 'h' :: "ello".toList ∧
    parsePromptLine jloadsStub ("hello".toList) = .ok (some (.str ('h' :: "ello".toList))) :=
  ⟨rfl, (c3_prompt_parsing jloadsStub ("hello".toList) 'h' ("ello".toList) rfl).2.2 (by decide)⟩

/-- C5 (confirmed): for any split and any pair of the fixed eleven-pair
catalog, `dump_pair` writes exactly two files, at
`<root>/<split>/<pair>/doc.<src>.jsonl` and
`<root>/<split>/<pair>/doc.<tgt>.jsonl`, each with one line per row of
the corresponding fetched column; when the two fetched columns have
equal length the two files have equal line counts. -/
theorem c5_dump_pair_files (fetch : Str → Str → Dataset)
    (subset outRoot pair src_lang tgt_lang : Str)
    (_hp : pair ∈ PAIRS) (hsplit : pySplit '_' pair = [src_lang, tgt_lang])
    (hlen : (fetch subset (src_lang ++ '_' :: tgt_lang)).src_txt.length
          = (fetch subset (src_lang ++ '_' :: tgt_lang)).tgt_txt.length) :
    dump_pair fetch subset pair outRoot = .ok
      [(joinPath (joinPath (joinPath outRoot subset) pair)
          ("doc.".toList ++ src_lang ++ ".jsonl".toList),
        save_jsonl (fetch subset (src_lang ++ '_' :: tgt_lang)).src_txt),
       (joinPath (joinPath (joinPath outRoot subset) pair)
          ("doc.".toList ++ tgt_lang ++ ".jsonl".toList),
        save_jsonl (fetch subset (src_lang ++ '_' :: tgt_lang)).tgt_txt)] ∧
    countLines (save_jsonl (fetch subset (src_lang ++ '_' :: tgt_lang)).src_txt)
      = (fetch subset (src_lang ++ '_' :: tgt_lang)).src_txt.length ∧
    countLines (save_jsonl (fetch subset (src_lang ++ '_' :: tgt_lang)).tgt_txt)
      = (fetch subset (src_lang ++ '_' :: tgt_lang)).tgt_txt.length ∧
    countLines (save_jsonl (fetch subset (src_lang ++ '_' :: tgt_lang)).src_txt)
      = countLines (save_jsonl (fetch subset (src_lang ++ '_' :: tgt_lang)).tgt_txt) := by
  refine ⟨?_, countLines_save_jsonl _, countLines_save_jsonl _, ?_⟩
  · simp only [dump_pair, hsplit]
  · rw [countLines_save_jsonl, countLines_save_jsonl, hlen]

/-- C5 witness: split `"dev"`, pair `"eng_hin"`, a three-row fetch. -/
theorem c5_dump_pair_files_witness :
    ("eng_hin".toList ∈ PAIRS) ∧
    pySplit '_' ("eng_hin".toList) = ["eng".toList, "hin".toList] ∧
    countLines (save_jsonl (fetchW ("dev".toList) ("eng".toList ++ '_' :: "hin".toList)).src_txt)
      = countLines (save_jsonl (fetchW ("dev".toList) ("eng".toList ++ '_' :: "hin".toList)).tgt_txt) :=
  ⟨by decide, rfl,
   (c5_dump_pair_files fetchW ("dev".toList) ("/tmp/out".toList) ("eng_hin".toList)
     ("eng".toList) ("hin".toList) (by decide) rfl rfl).2.2.2⟩

/-- C7 (confirmed): if some input line strips to a JSON-looking line
(first character `'{'` or `'['`) on which `json.loads` fails, the
invocation fails during the up-front `list(load_prompts(...))` call:
the engine is never initialized and no output file is created, so no
partial output exists. -/
theorem c7_parse_error_aborts (jloads : Str → Except PyErr Json) (eng : Str → Str)
    (lines : List Str) (outPath : Str) (b : Nat) (l : Str) (c : Char) (cs : Str) (e : PyErr)
    (hmem : l ∈ lines) (hs : strip l = c :: cs) (hc : c = '{' ∨ c = '[')
    (hj : jloads (c :: cs) = .error e) :
    ∃ e', load_prompts jloads lines = .error e' ∧
      py_main jloads eng lines outPath b = ⟨false, none, .error e'⟩ := by
  have hp := parsePromptLine_jloads_error jloads l c cs e hs hc hj
  obtain ⟨e', he'⟩ := load_prompts_error_of_mem jloads lines l e hmem hp
  exact ⟨e', he', py_main_of_load_error jloads eng lines outPath b e' he'⟩

/-- C7 witness: a prompt file whose only line is the malformed
JSON-looking line `"[oops"`. -/
theorem c7_parse_error_aborts_witness :
    ∃ e', load_prompts jloadsStub ["[oops".toList] = .error e' ∧
      py_main jloadsStub engStub ["[oops".toList] ("out/res.jsonl".toList) 4 =
        ⟨false, none, .error e'⟩ :=
  c7_parse_error_aborts jloadsStub engStub ["[oops".toList] ("out/res.jsonl".toList) 4
    ("[oops".toList) '[' ("oops".toList) .jsonDecodeError
    (List.mem_cons_self _ _) rfl (by decide) rfl

/-- C8 (confirmed): after the write loop has processed and flushed its
first `n` batches, the output file consists of exactly the complete,
newline-terminated serialized completions of those batches in order —
no partial or corrupted trailing line — and splitting the file into
lines recovers exactly those batches' lines. -/
theorem c8_flush_prefix (eng : Str → Str) (b : Nat) (qs : List Str) (n : Nat) :
    fileAfter eng b qs n =
      renderLines (((chunkList b qs).take n).flatMap
        (fun batch => batch.map (fun p => dumpLine (normalize_output p (p ++ eng p))))) ∧
    splitLines (fileAfter eng b qs n) =
      ((chunkList b qs).take n).flatMap
        (fun batch => batch.map (fun p => dumpLine (normalize_output p (p ++ eng p)))) := by
  have h1 : (chunkList b (qs.map Json.str)).take n
      = ((chunkList b qs).take n).map (List.map Json.str) := by
    rw [chunkList_map b Json.str qs]
    exact (List.map_take _ _ _).symm
  have hfun : batchLines eng =
      fun batch => batch.map (fun p => dumpLine (normalize_output p (p ++ eng p))) :=
    funext (batchLines_eq eng)
  have hmain : fileAfter eng b qs n =
      renderLines (((chunkList b qs).take n).flatMap
        (fun batch => batch.map (fun p => dumpLine (normalize_output p (p ++ eng p))))) := by
    unfold fileAfter
    rw [h1, writeLoop_str]
    simp only [List.nil_append, hfun]
  refine ⟨hmain, ?_⟩
  rw [hmain, splitLines_renderLines]
  intro l hl
  simp only [List.mem_flatMap, List.mem_map] at hl
  obtain ⟨batch, _, p, _, rfl⟩ := hl
  exact newline_not_mem_dumpLine _

/-- C9 (confirmed): an input line parsing as the empty JSON array
raises IndexError (`obj[0]`), and one parsing as a JSON object without
a `"prompt"` field raises KeyError (`obj["prompt"]`); in either case
`load_prompts` raises rather than yielding a prompt or skipping the
line, so the invocation aborts before the engine is initialized and
before any output exists. -/
theorem c9_partial_parsing_aborts (jloads : Str → Except PyErr Json) (eng : Str → Str)
    (lines : List Str) (outPath : Str) (b : Nat) (l : Str) (c : Char) (cs : Str)
    (hmem : l ∈ lines) (hs : strip l = c :: cs) (hc : c = '{' ∨ c = '[')
    (hj : jloads (c :: cs) = .ok (.arr []) ∨
      ∃ fields, jloads (c :: cs) = .ok (.obj fields) ∧ objLookup promptKey fields = none) :
    (parsePromptLine jloads l = .error .indexError ∨
      parsePromptLine jloads l = .error .keyError) ∧
    ∃ e', py_main jloads eng lines outPath b = ⟨false, none, .error e'⟩ := by
  have hp : parsePromptLine jloads l = .error .indexError ∨
      parsePromptLine jloads l = .error .keyError := by
    rcases hj with hj | ⟨fields, hj, hf⟩
    · exact Or.inl (parsePromptLine_arr_empty jloads l c cs hs hc hj)
    · exact Or.inr (parsePromptLine_obj_missing jloads l c cs fields hs hc hj hf)
  refine ⟨hp, ?_⟩
  rcases hp with hp | hp
  · obtain ⟨e', he'⟩ := load_prompts_error_of_mem jloads lines l _ hmem hp
    exact ⟨e', py_main_of_load_error jloads eng lines outPath b e' he'⟩
  · obtain ⟨e', he'⟩ := load_prompts_error_of_mem jloads lines l _ hmem hp
    exact ⟨e', py_main_of_load_error jloads eng lines outPath b e' he'⟩

/-- C9 witness: a prompt file whose only line is `"[]"`, parsed by
`json.loads` to the empty JSON array. -/
theorem c9_partial_parsing_aborts_witness :
    (parsePromptLine jloadsEmptyArr ("[]".toList) = .error .indexError ∨
      parsePromptLine jloadsEmptyArr ("[]".toList) = .error .keyError) ∧
    ∃ e', py_main jloadsEmptyArr engStub ["[]".toList] ("out/res.jsonl".toList) 4 =
      ⟨false, none, .error e'⟩ :=
  c9_partial_parsing_aborts jloadsEmptyArr engStub ["[]".toList] ("out/res.jsonl".toList) 4
    ("[]".toList) '[' ([']']) (List.mem_cons_self _ _) rfl (by decide) (Or.inl rfl)

/-- C10 (confirmed): after a successful prompt load, a bare output
filename (empty `os.path.dirname`) makes `os.makedirs("")` raise
FileNotFoundError, aborting before the engine is initialized and before
any output file exists; with a non-empty directory component the run
proceeds to engine initialization. -/
theorem c10_bare_filename (jloads : Str → Except PyErr Json) (eng : Str → Str)
    (lines : List Str) (outPath : Str) (b : Nat) (ps : List Json)
    (hload : load_prompts jloads lines = .ok ps) :
    (dirname outPath = [] →
      py_main jloads eng lines outPath b = ⟨false, none, .error .fileNotFoundError⟩) ∧
    (dirname outPath ≠ [] →
      (py_main jloads eng lines outPath b).engineInitialized = true) := by
  constructor
  · intro hdir
    simp only [py_main, hload, if_pos hdir]
  · intro hdir
    by_cases hb : b = 0
    · simp only [py_main, hload, if_neg hdir, if_pos hb]
    · simp only [py_main, hload, if_neg hdir, if_neg hb]

/-- C10 witness: the bare filename `"res.jsonl"` aborts the run with
FileNotFoundError before engine initialization. -/
theorem c10_bare_filename_witness :
    load_prompts jloadsStub ["hi".toList] = .ok [Json.str ("hi".toList)] ∧
    py_main jloadsStub engStub ["hi".toList] ("res.jsonl".toList) 4 =
      ⟨false, none, .error .fileNotFoundError⟩ :=
  ⟨rfl, (c10_bare_filename jloadsStub engStub ["hi".toList] ("res.jsonl".toList) 4
      [Json.str ("hi".toList)] rfl).1 rfl⟩
